import Mathlib

/-!
Shallow embedding of `server.js` from Platypus4356/mailTrackerServer.

The source file holds two revisions of the same Express server:
variant 1 (lines 1-269: file-scanning status handlers, a try/catch around
the durable append, an `emailId.length > 5` gate and no 400 path) and
variant 2 (lines 270-467: regex identifier validation, size-triggered log
rotation, the in-memory `logCache` map, and an unguarded `logEvent` call).

Modelling conventions, each noted again at the definition it concerns:
JS strings are Lean `String`; timestamps (ISO-8601 strings produced by
`new Date().toISOString()`, compared chronologically via `new Date(...)`)
are `Nat` milliseconds since the epoch (an ISO string is never empty, so
the `|| null` fallbacks in the status handlers never fire on a present
entry and are modelled by `Option.map`); the JSONL log file is the list
of the entries its lines serialize, since every line is
`JSON.stringify(entry)` and `JSON.parse` of such a line restores the
entry; file sizes are computed from the serialized line lengths.
A synchronous exception thrown inside an Express handler is caught by the
framework and routed to the error middleware, which answers
`500 {success:false, error:"Internal server error"}`; the possibility of
`fs.appendFileSync` throwing is made explicit as a Boolean `appendFails`
input to the handler.
-/

/-- Decides whether `needle` occurs at the head of `hay` (character lists). -/
def startsWithChars : List Char → List Char → Bool
  | [], _ => true
  | _ :: _, [] => false
  | a :: as, b :: bs => a == b && startsWithChars as bs

/-- Decides whether `needle` occurs anywhere inside `hay`; models
`String.prototype.includes`. -/
def hasSubstrChars (needle : List Char) : List Char → Bool
  | [] => startsWithChars needle []
  | b :: bs => startsWithChars needle (b :: bs) || hasSubstrChars needle bs

/-- Models `hay.includes(needle)` on JS strings. -/
def strContains (hay needle : String) : Bool :=
  hasSubstrChars needle.toList hay.toList

/-- ASCII lower-casing; models `String.prototype.toLowerCase` (and the `i`
flag of the regexes below) on the ASCII-only patterns the server uses. -/
def lowerStr (s : String) : String :=
  String.mk (s.toList.map Char.toLower)

/-- Numeric value of one base64 alphabet character. -/
def base64Val (c : Char) : Nat :=
  if ('A' ≤ c && c ≤ 'Z') then c.toNat - 65
  else if ('a' ≤ c && c ≤ 'z') then c.toNat - 97 + 26
  else if ('0' ≤ c && c ≤ '9') then c.toNat - 48 + 52
  else if c == '+' then 62
  else if c == '/' then 63
  else 0

/-- Decodes base64 character groups of four into byte triples; models
`Buffer.from(s, "base64")`. -/
def base64DecodeChars : List Char → List Nat
  | a :: b :: c :: d :: rest =>
    let n := base64Val a * 262144 + base64Val b * 4096 + base64Val c * 64 + base64Val d
    let bytes :=
      if c == '=' then [n / 65536]
      else if d == '=' then [n / 65536, n / 256 % 256]
      else [n / 65536, n / 256 % 256, n % 256]
    bytes ++ base64DecodeChars rest
  | _ => []

/-- Decodes a base64 string to its byte sequence. -/
def base64Decode (s : String) : List Nat :=
  base64DecodeChars s.toList

/-- The fixed 1x1 transparent GIF bytes served by both variants, decoded
from the base64 literal appearing verbatim in both handlers. -/
def pixelBytes : List Nat :=
  base64Decode "R0lGODlhAQABAIAAAAAAAP///yH5BAEAAAAALAAAAAABAAEAAAIBRAA7"

/-- One inbound tracking request: the route parameter and the request
headers the handlers read (User-Agent, Referer, X-Forwarded-For / ip). -/
structure Request where
  emailId : String
  userAgent : String
  referrer : String
  ip : String
deriving DecidableEq

/-- One log entry, exactly the object both variants build:
`{ emailId, timestamp, ip, userAgent, referrer, isGmailProxy }`. -/
structure Entry where
  emailId : String
  timestamp : Nat
  ip : String
  userAgent : String
  referrer : String
  isGmailProxy : Bool
deriving DecidableEq

/-- The caching-relevant response headers both pixel responses set.
Variant 1 additionally sets a time-dependent Last-Modified header,
omitted here as presentational. -/
structure PixelHeaders where
  contentType : String
  contentLength : Nat
  cacheControl : String
  pragmaHeader : String
  expires : String
deriving DecidableEq

/-- An HTTP response of the tracking endpoint: the 200 pixel, the 400
plain-text rejection, or the 500 JSON produced by the Express error
middleware when a handler throws. -/
inductive Resp where
  | ok (body : List Nat) (headers : PixelHeaders)
  | badRequest (body : String)
  | serverError (body : String)
deriving DecidableEq

/-- The per-identifier summary shape shared by the status handlers:
`{ opened, openCount, firstOpened, lastOpened }`. -/
structure Summary where
  opened : Bool
  openCount : Nat
  firstOpened : Option Nat
  lastOpened : Option Nat
deriving DecidableEq

/-- The summary reported for an identifier with no recorded events. -/
def zeroSummary : Summary :=
  { opened := false, openCount := 0, firstOpened := none, lastOpened := none }

/-- Stable insertion into a timestamp-sorted list: an element is placed
before the first strictly later element, hence after its equals, matching
the stable `Array.prototype.sort((a, b) => new Date(a.timestamp) - new Date(b.timestamp))`. -/
def insertTS (e : Entry) : List Entry → List Entry
  | [] => [e]
  | x :: xs => if e.timestamp ≤ x.timestamp then e :: x :: xs else x :: insertTS e xs

/-- Stable sort by timestamp, modelling the `.sort` call of the variant 1
status handlers. -/
def sortByTS : List Entry → List Entry
  | [] => []
  | x :: xs => insertTS x (sortByTS xs)

/-- Chronological sortedness of an entry list. -/
def SortedTS (l : List Entry) : Prop :=
  List.Pairwise (fun a b => a.timestamp ≤ b.timestamp) l

namespace V1

/-- Variant 1 bot test: `userAgent.toLowerCase().includes(...)` over the
tokens bot, crawler, spider, slurp. -/
def isBotUA (userAgent : String) : Bool :=
  strContains (lowerStr userAgent) "bot" ||
  strContains (lowerStr userAgent) "crawler" ||
  strContains (lowerStr userAgent) "spider" ||
  strContains (lowerStr userAgent) "slurp"

/-- Variant 1 proxy test: case-sensitive `includes` of the four Google
proxy markers. -/
def isGmailProxyUA (userAgent : String) : Bool :=
  strContains userAgent "GoogleImageProxy" ||
  strContains userAgent "Google" ||
  strContains userAgent "ggpht.com" ||
  strContains userAgent "googleusercontent.com"

/-- Variant 1 pixel response: image headers with
Cache-Control `no-cache, no-store, must-revalidate, private`. -/
def pixelResp : Resp :=
  Resp.ok pixelBytes
    { contentType := "image/gif"
      contentLength := pixelBytes.length
      cacheControl := "no-cache, no-store, must-revalidate, private"
      pragmaHeader := "no-cache"
      expires := "0" }

/-- The `logEntry` object variant 1 builds from a request and the current
time. -/
def mkEntry (now : Nat) (req : Request) : Entry :=
  { emailId := req.emailId, timestamp := now, ip := req.ip
    userAgent := req.userAgent, referrer := req.referrer
    isGmailProxy := isGmailProxyUA req.userAgent }

/-- Variant 1 `/track` handler.  State is the durable log file (list of
entries).  The gate is `!isBot && emailId && emailId.length > 5` (the
truthiness of the string `emailId` is nonemptiness); the append sits in a
try/catch whose catch only logs to the console, so a failing append
(modelled by `appendFails`) changes nothing and the pixel is still sent. -/
def trackHandler (now : Nat) (appendFails : Bool) (req : Request) (file : List Entry) :
    List Entry × Resp :=
  if !isBotUA req.userAgent && req.emailId != "" && decide (5 < req.emailId.length) then
    if appendFails then (file, pixelResp)
    else (file ++ [mkEntry now req], pixelResp)
  else (file, pixelResp)

/-- Variant 1 status handler core: re-read the log file, keep the lines
whose `emailId` matches, sort them by timestamp, and summarize.  Parsing
is the identity on our file model since every line is the serialization
of an entry. -/
def scanStatus (file : List Entry) (emailId : String) : Summary :=
  let emailLogs := sortByTS (file.filter (fun log => log.emailId == emailId))
  { opened := decide (0 < emailLogs.length)
    openCount := emailLogs.length
    firstOpened := emailLogs.head?.map Entry.timestamp
    lastOpened := emailLogs.getLast?.map Entry.timestamp }

end V1

namespace V2

/-- Variant 2 log size threshold: `MAX_LOG_SIZE = 5 * 1024 * 1024`. -/
def MAX_LOG_SIZE : Nat := 5 * 1024 * 1024

/-- Variant 2 identifier validation: `/^[a-zA-Z0-9_-]{8,128}$/.test(emailId)`. -/
def isValidIdChar (c : Char) : Bool :=
  ('a' ≤ c && c ≤ 'z') || ('A' ≤ c && c ≤ 'Z') || ('0' ≤ c && c ≤ '9') || c == '_' || c == '-'

/-- Decides the full validation regex: charset `[A-Za-z0-9_-]`, length
between 8 and 128, anchored at both ends. -/
def validId (s : String) : Bool :=
  decide (8 ≤ s.length) && decide (s.length ≤ 128) && s.toList.all isValidIdChar

/-- Variant 2 bot test: `/bot|crawler|spider|slurp/i.test(userAgent)`. -/
def isBotUA (userAgent : String) : Bool :=
  strContains (lowerStr userAgent) "bot" ||
  strContains (lowerStr userAgent) "crawler" ||
  strContains (lowerStr userAgent) "spider" ||
  strContains (lowerStr userAgent) "slurp"

/-- Variant 2 proxy test: `/google|ggpht|googleusercontent/i.test(userAgent)`. -/
def isGmailProxyUA (userAgent : String) : Bool :=
  strContains (lowerStr userAgent) "google" ||
  strContains (lowerStr userAgent) "ggpht" ||
  strContains (lowerStr userAgent) "googleusercontent"

/-- Escapes a string for a JSON string literal as `JSON.stringify` does
on the printable strings at hand: backslash and double quote get a
backslash, control characters become six-character escapes. -/
def jsonEscape (s : String) : String :=
  String.mk (s.toList.foldr
    (fun c acc =>
      if c == '"' || c == '\\' then '\\' :: c :: acc
      else if decide (c.toNat < 32) then '\\' :: 'u' :: '0' :: '0' :: 'x' :: 'x' :: acc
      else c :: acc) [])

/-- The serialized form `JSON.stringify(entry)` of one log entry, with the
timestamp field abstracted to the decimal digits of the `Nat` model of the
ISO-8601 instant. -/
def serializeEntry (e : Entry) : String :=
  "\x7b\"emailId\":\"" ++ jsonEscape e.emailId ++
  "\",\"timestamp\":\"" ++ toString e.timestamp ++
  "\",\"ip\":\"" ++ jsonEscape e.ip ++
  "\",\"userAgent\":\"" ++ jsonEscape e.userAgent ++
  "\",\"referrer\":\"" ++ jsonEscape e.referrer ++
  "\",\"isGmailProxy\":" ++ (if e.isGmailProxy then "true" else "false") ++ "\x7d"

/-- Size in characters of one appended line: `JSON.stringify(entry) + "\n"`. -/
def lineSize (e : Entry) : Nat :=
  (serializeEntry e).length + 1

/-- Size of the active log file, `fs.statSync(file).size` in our model:
the sum of the sizes of the appended lines. -/
def fileSize (file : List Entry) : Nat :=
  (file.map lineSize).sum

/-- The full mutable state of variant 2: the active log file, the rotated
archive files (keyed by the `Date.now()` embedded in the backup name),
and the `logCache` map from email id to its list of entries. -/
structure LogState where
  activeFile : List Entry
  rotated : List (Nat × List Entry)
  cache : List (String × List Entry)
deriving DecidableEq

/-- Lookup in the `logCache` map: the entry list of the first binding of
the key, `[]` when absent (`logCache.get(id) || []`). -/
def cacheLookup (id : String) : List (String × List Entry) → List Entry
  | [] => []
  | (k, v) :: rest => if k == id then v else cacheLookup id rest

/-- `logCache.set/get/push` of `logEvent`: create the binding when absent,
then push the entry at the end of its list. -/
def cachePush (id : String) (e : Entry) : List (String × List Entry) → List (String × List Entry)
  | [] => [(id, [e])]
  | (k, v) :: rest => if k == id then (k, v ++ [e]) :: rest else (k, v) :: cachePush id e rest

/-- `rotateLogFile()`: when the active file size exceeds `MAX_LOG_SIZE`,
rename it to a backup named with `Date.now()` and start a fresh empty
active file; otherwise do nothing. -/
def rotateLogFile (now : Nat) (st : LogState) : LogState :=
  if decide (MAX_LOG_SIZE < fileSize st.activeFile) then
    { st with activeFile := [], rotated := st.rotated ++ [(now, st.activeFile)] }
  else st

/-- `logEvent(entry)`: append the serialized line to the active file, then
push the entry on its id in `logCache`. -/
def logEvent (e : Entry) (st : LogState) : LogState :=
  { st with activeFile := st.activeFile ++ [e], cache := cachePush e.emailId e st.cache }

/-- The `entry` object variant 2 builds from a request and the current
time. -/
def mkEntry (now : Nat) (req : Request) : Entry :=
  { emailId := req.emailId, timestamp := now, ip := req.ip
    userAgent := req.userAgent, referrer := req.referrer
    isGmailProxy := isGmailProxyUA req.userAgent }

/-- Variant 2 pixel response: image headers with
Cache-Control `no-cache, no-store, must-revalidate`. -/
def pixelResp : Resp :=
  Resp.ok pixelBytes
    { contentType := "image/gif"
      contentLength := pixelBytes.length
      cacheControl := "no-cache, no-store, must-revalidate"
      pragmaHeader := "no-cache"
      expires := "0" }

/-- Variant 2 `/track` handler.  Invalid ids are rejected with
`400 "Invalid email ID"` before any side effect; bots skip logging; an
accepted request rotates if needed and then runs `logEvent`.  `logEvent`
is called with no try/catch, so when the append throws (`appendFails`)
the exception leaves the handler after the rotation but before the file
append and cache push, and the error middleware answers 500. -/
def trackHandler (now : Nat) (appendFails : Bool) (req : Request) (st : LogState) :
    LogState × Resp :=
  if validId req.emailId = false then
    (st, Resp.badRequest "Invalid email ID")
  else
    let bot := isBotUA req.userAgent
    if bot then (st, pixelResp)
    else
      let st1 := rotateLogFile now st
      if appendFails then (st1, Resp.serverError "Internal server error")
      else (logEvent (mkEntry now req) st1, pixelResp)

/-- Variant 2 single status handler: summarize `logCache.get(id) || []`
as found, with no sorting. -/
def emailStatus (st : LogState) (id : String) : Summary :=
  let logs := cacheLookup id st.cache
  { opened := decide (0 < logs.length)
    openCount := logs.length
    firstOpened := logs.head?.map Entry.timestamp
    lastOpened := logs.getLast?.map Entry.timestamp }

/-- Variant 2 bulk status handler: the same summary for each requested id
(reached only when `emailIds` is an array, else the handler answers 400). -/
def bulkStatus (st : LogState) (ids : List String) : List (String × Summary) :=
  ids.map (fun id =>
    let logs := cacheLookup id st.cache
    (id,
      { opened := decide (0 < logs.length)
        openCount := logs.length
        firstOpened := logs.head?.map Entry.timestamp
        lastOpened := logs.getLast?.map Entry.timestamp }))

/-- Process startup: `initializeLogFile()` creates the active file only
when missing and never reads it back; `logCache` is a fresh empty `Map`.
Rotated siblings on disk are never read, so the state starts with the
disk content of the active file and an empty cache. -/
def startupState (disk : List Entry) : LogState :=
  { activeFile := disk, rotated := [], cache := [] }

/-- Runs a sequence of timestamped tracking requests through the variant 2
handler with successful appends. -/
def runTrack : List (Nat × Request) → LogState → LogState
  | [], st => st
  | (now, r) :: rest, st => runTrack rest (trackHandler now false r st).1

/-- The entries an input sequence gets logged: one per request that passes
validation and the bot gate, in order, timestamped with its `now`. -/
def acceptedEntries : List (Nat × Request) → List Entry
  | [] => []
  | (now, r) :: rest =>
    if validId r.emailId && !isBotUA r.userAgent then
      mkEntry now r :: acceptedEntries rest
    else acceptedEntries rest

/-- Adjacent monotonicity of the request timestamps of a run, the clock
discipline of a single process (`new Date()` never goes back). -/
def chronoB : List (Nat × Request) → Bool
  | [] => true
  | [_] => true
  | a :: b :: rest => decide (a.1 ≤ b.1) && chronoB (b :: rest)

/-- The earliest timestamp occurring in a list of entries. -/
def minTS? : List Entry → Option Nat
  | [] => none
  | e :: es =>
    some (match minTS? es with
      | none => e.timestamp
      | some m => min e.timestamp m)

/-- The latest timestamp occurring in a list of entries. -/
def maxTS? : List Entry → Option Nat
  | [] => none
  | e :: es =>
    some (match maxTS? es with
      | none => e.timestamp
      | some m => max e.timestamp m)

theorem cacheLookup_cachePush_same (id : String) (e : Entry) :
    ∀ c, cacheLookup id (cachePush id e c) = cacheLookup id c ++ [e] := by
  intro c
  induction c with
  | nil => simp [cachePush, cacheLookup]
  | cons kv rest ih =>
    obtain ⟨k, v⟩ := kv
    by_cases h : k = id
    · subst h; simp [cachePush, cacheLookup]
    · simp [cachePush, cacheLookup, h, ih]

theorem cacheLookup_cachePush_ne (id id' : String) (e : Entry) (hne : id' ≠ id) :
    ∀ c, cacheLookup id (cachePush id' e c) = cacheLookup id c := by
  intro c
  induction c with
  | nil => simp [cachePush, cacheLookup, hne]
  | cons kv rest ih =>
    obtain ⟨k, v⟩ := kv
    by_cases h : k = id'
    · subst h; simp [cachePush, cacheLookup, hne, ih]
    · simp [cachePush, cacheLookup, h, ih]

theorem rotateLogFile_cache (now : Nat) (st : LogState) :
    (rotateLogFile now st).cache = st.cache := by
  simp only [rotateLogFile]
  split <;> rfl

theorem rotateLogFile_small (now : Nat) (st : LogState)
    (h : fileSize st.activeFile ≤ MAX_LOG_SIZE) : rotateLogFile now st = st := by
  simp [rotateLogFile, Nat.not_lt.mpr h]

/-- The state transition of one variant 2 tracking request with a
successful append: accepted requests rotate then log, everything else is
a no-op on the state. -/
theorem trackHandler_state (now : Nat) (req : Request) (st : LogState) :
    (trackHandler now false req st).1 =
      if validId req.emailId && !isBotUA req.userAgent then
        logEvent (mkEntry now req) (rotateLogFile now st)
      else st := by
  cases h1 : validId req.emailId <;> cases h2 : isBotUA req.userAgent <;>
    simp [trackHandler, h1, h2]

/-- A bot-classified request never changes the variant 2 state, whatever
the append outcome. -/
theorem trackHandler_bot (now : Nat) (af : Bool) (req : Request) (st : LogState)
    (hb : isBotUA req.userAgent = true) : (trackHandler now af req st).1 = st := by
  cases h1 : validId req.emailId <;> simp [trackHandler, h1, hb]

theorem cacheLookup_trackHandler (id : String) (now : Nat) (req : Request) (st : LogState) :
    cacheLookup id (trackHandler now false req st).1.cache =
      cacheLookup id st.cache ++
        (acceptedEntries [(now, req)]).filter (fun e => e.emailId == id) := by
  rw [trackHandler_state]
  by_cases hacc : (validId req.emailId && !isBotUA req.userAgent) = true
  · rw [if_pos hacc]
    simp only [acceptedEntries, hacc, if_true, logEvent, rotateLogFile_cache]
    have hproj : (mkEntry now req).emailId = req.emailId := rfl
    rw [hproj]
    by_cases hid : req.emailId = id
    · subst hid
      simp [cacheLookup_cachePush_same, mkEntry, List.filter]
    · rw [cacheLookup_cachePush_ne id req.emailId _ hid]
      have hbeq : (req.emailId == id) = false := beq_eq_false_iff_ne.mpr hid
      simp [mkEntry, List.filter, hbeq]
  · rw [if_neg hacc]
    simp only [acceptedEntries, hacc, if_false]
    simp [List.filter]

/-- The cache content for one identifier after a run: the prior content
followed by the accepted entries of the run carrying that identifier. -/
theorem runTrack_cacheLookup (id : String) :
    ∀ (evs : List (Nat × Request)) (st : LogState),
      cacheLookup id (runTrack evs st).cache =
        cacheLookup id st.cache ++
          (acceptedEntries evs).filter (fun e => e.emailId == id) := by
  intro evs
  induction evs with
  | nil => intro st; simp [runTrack, acceptedEntries, List.filter]
  | cons p rest ih =>
    intro st
    obtain ⟨now, r⟩ := p
    rw [runTrack, ih, cacheLookup_trackHandler]
    by_cases hacc : (validId r.emailId && !isBotUA r.userAgent) = true
    · simp only [acceptedEntries, hacc, if_true, List.filter_cons, List.filter_nil,
        List.append_assoc]
      split <;> simp
    · simp [acceptedEntries, hacc, List.filter]

theorem fileSize_append (l1 l2 : List Entry) :
    fileSize (l1 ++ l2) = fileSize l1 + fileSize l2 := by
  simp [fileSize]

theorem fileSize_cons (e : Entry) (l : List Entry) :
    fileSize (e :: l) = lineSize e + fileSize l := by
  simp [fileSize]

theorem fileSize_replicate (n : Nat) (e : Entry) :
    fileSize (List.replicate n e) = n * lineSize e := by
  induction n with
  | zero => simp [fileSize]
  | succ k ih => rw [List.replicate_succ, fileSize_cons, ih]; ring

/-- As long as the bytes appended by a run fit under the rotation
threshold together with the starting file, the run only ever appends: the
active file grows by exactly the accepted entries and no rotation
happens. -/
theorem runTrack_file :
    ∀ (evs : List (Nat × Request)) (st : LogState),
      fileSize st.activeFile + fileSize (acceptedEntries evs) ≤ MAX_LOG_SIZE →
      (runTrack evs st).activeFile = st.activeFile ++ acceptedEntries evs ∧
        (runTrack evs st).rotated = st.rotated := by
  intro evs
  induction evs with
  | nil => intro st h; simp [runTrack, acceptedEntries]
  | cons p rest ih =>
    intro st h
    obtain ⟨now, r⟩ := p
    rw [runTrack]
    by_cases hacc : (validId r.emailId && !isBotUA r.userAgent) = true
    · have hsz : fileSize (acceptedEntries ((now, r) :: rest)) =
          lineSize (mkEntry now r) + fileSize (acceptedEntries rest) := by
        simp [acceptedEntries, hacc, fileSize_cons]
      rw [hsz] at h
      have hsmall : fileSize st.activeFile ≤ MAX_LOG_SIZE := by omega
      have hstep : (trackHandler now false r st).1 =
          logEvent (mkEntry now r) st := by
        rw [trackHandler_state, if_pos hacc, rotateLogFile_small now st hsmall]
      rw [hstep]
      have hfile : (logEvent (mkEntry now r) st).activeFile =
          st.activeFile ++ [mkEntry now r] := rfl
      have hone : fileSize [mkEntry now r] = lineSize (mkEntry now r) := by
        simp [fileSize]
      have hrest := ih (logEvent (mkEntry now r) st) (by
        rw [hfile, fileSize_append, hone]
        omega)
      refine ⟨?_, ?_⟩
      · rw [hrest.1, hfile]
        simp [acceptedEntries, hacc, List.append_assoc]
      · exact hrest.2
    · have hstep : (trackHandler now false r st).1 = st := by
        rw [trackHandler_state, if_neg hacc]
      rw [hstep]
      have hrest := ih st (by
        simpa [acceptedEntries, hacc] using h)
      simpa [acceptedEntries, hacc] using hrest

/-- Adjacent monotonicity of the run timestamps gives full pairwise
monotonicity. -/
theorem chronoB_pairwise :
    ∀ evs : List (Nat × Request), chronoB evs = true →
      List.Pairwise (fun a b : Nat × Request => a.1 ≤ b.1) evs := by
  intro evs
  induction evs with
  | nil => intro _; exact List.Pairwise.nil
  | cons a rest ih =>
    intro h
    cases rest with
    | nil => simp
    | cons b rest2 =>
      rw [chronoB, Bool.and_eq_true, decide_eq_true_eq] at h
      have ihp := ih h.2
      have hb := (List.pairwise_cons.mp ihp).1
      refine List.pairwise_cons.mpr ⟨?_, ihp⟩
      intro x hx
      rcases List.mem_cons.mp hx with rfl | hx2
      · exact h.1
      · exact le_trans h.1 (hb x hx2)

/-- Every accepted entry carries the timestamp of the request it came
from. -/
theorem mem_acceptedEntries_timestamp :
    ∀ (evs : List (Nat × Request)) (e : Entry), e ∈ acceptedEntries evs →
      ∃ p ∈ evs, e.timestamp = p.1 := by
  intro evs
  induction evs with
  | nil => intro e he; simp [acceptedEntries] at he
  | cons p rest ih =>
    intro e he
    obtain ⟨now, r⟩ := p
    by_cases hacc : (validId r.emailId && !isBotUA r.userAgent) = true
    · rw [acceptedEntries, if_pos hacc] at he
      rcases List.mem_cons.mp he with rfl | h2
      · exact ⟨(now, r), List.mem_cons_self _ _, rfl⟩
      · obtain ⟨q, hq, hts⟩ := ih e h2
        exact ⟨q, List.mem_cons_of_mem _ hq, hts⟩
    · rw [acceptedEntries, if_neg hacc] at he
      obtain ⟨q, hq, hts⟩ := ih e he
      exact ⟨q, List.mem_cons_of_mem _ hq, hts⟩

/-- The accepted entries of a chronological run are chronologically
sorted. -/
theorem acceptedEntries_sorted :
    ∀ evs : List (Nat × Request),
      List.Pairwise (fun a b : Nat × Request => a.1 ≤ b.1) evs →
      SortedTS (acceptedEntries evs) := by
  intro evs
  induction evs with
  | nil => intro _; exact List.Pairwise.nil
  | cons p rest ih =>
    intro h
    obtain ⟨now, r⟩ := p
    have hp := List.pairwise_cons.mp h
    by_cases hacc : (validId r.emailId && !isBotUA r.userAgent) = true
    · rw [acceptedEntries, if_pos hacc]
      refine List.pairwise_cons.mpr ⟨?_, ih hp.2⟩
      intro e he
      obtain ⟨q, hq, hts⟩ := mem_acceptedEntries_timestamp rest e he
      have hnow : (mkEntry now r).timestamp = now := rfl
      rw [hnow, hts]
      exact hp.1 q hq
    · rw [acceptedEntries, if_neg hacc]
      exact ih hp.2

theorem minTS?_mem :
    ∀ (l : List Entry) (m : Nat), minTS? l = some m → ∃ e ∈ l, e.timestamp = m := by
  intro l
  induction l with
  | nil => intro m h; simp [minTS?] at h
  | cons e es ih =>
    intro m h
    rw [minTS?] at h
    cases hm : minTS? es with
    | none =>
      rw [hm] at h
      simp only [Option.some.injEq] at h
      exact ⟨e, List.mem_cons_self _ _, h⟩
    | some m2 =>
      rw [hm] at h
      simp only [Option.some.injEq] at h
      rcases le_total e.timestamp m2 with hle | hle
      · rw [min_eq_left hle] at h; exact ⟨e, List.mem_cons_self _ _, h⟩
      · rw [min_eq_right hle] at h
        obtain ⟨e2, he2, hts⟩ := ih m2 hm
        exact ⟨e2, List.mem_cons_of_mem _ he2, by rw [hts, h]⟩

theorem maxTS?_mem :
    ∀ (l : List Entry) (m : Nat), maxTS? l = some m → ∃ e ∈ l, e.timestamp = m := by
  intro l
  induction l with
  | nil => intro m h; simp [maxTS?] at h
  | cons e es ih =>
    intro m h
    rw [maxTS?] at h
    cases hm : maxTS? es with
    | none =>
      rw [hm] at h
      simp only [Option.some.injEq] at h
      exact ⟨e, List.mem_cons_self _ _, h⟩
    | some m2 =>
      rw [hm] at h
      simp only [Option.some.injEq] at h
      rcases le_total e.timestamp m2 with hle | hle
      · rw [max_eq_right hle] at h
        obtain ⟨e2, he2, hts⟩ := ih m2 hm
        exact ⟨e2, List.mem_cons_of_mem _ he2, by rw [hts, h]⟩
      · rw [max_eq_left hle] at h; exact ⟨e, List.mem_cons_self _ _, h⟩

/-- On a chronologically sorted list the first element carries the
earliest timestamp. -/
theorem sorted_head_minTS :
    ∀ l : List Entry, SortedTS l → l.head?.map Entry.timestamp = minTS? l := by
  intro l
  induction l with
  | nil => intro _; rfl
  | cons e es _ =>
    intro h
    have hp := List.pairwise_cons.mp h
    cases hm : minTS? es with
    | none => simp [minTS?, hm]
    | some m =>
      obtain ⟨e2, he2, hts⟩ := minTS?_mem es m hm
      have hle : e.timestamp ≤ m := by rw [← hts]; exact hp.1 e2 he2
      simp [minTS?, hm, min_eq_left hle]

/-- On a chronologically sorted list the last element carries the latest
timestamp. -/
theorem sorted_getLast_maxTS :
    ∀ l : List Entry, SortedTS l → l.getLast?.map Entry.timestamp = maxTS? l := by
  intro l
  induction l with
  | nil => intro _; rfl
  | cons e es ih =>
    intro h
    have hp := List.pairwise_cons.mp h
    cases es with
    | nil => simp [maxTS?]
    | cons f fs =>
      have ihe := ih hp.2
      rw [List.getLast?_cons_cons, ihe]
      cases hm : maxTS? (f :: fs) with
      | none => rw [maxTS?] at hm; simp at hm
      | some m =>
        obtain ⟨e2, he2, hts⟩ := maxTS?_mem (f :: fs) m hm
        have hle : e.timestamp ≤ m := by rw [← hts]; exact hp.1 e2 he2
        have hunf : maxTS? (e :: f :: fs) =
            some (match maxTS? (f :: fs) with
              | none => e.timestamp
              | some m2 => max e.timestamp m2) := rfl
        rw [hunf]
        simp only [hm]
        rw [max_eq_right hle]

end V2

/-- A stable insertion into a list whose head is not earlier leaves the
list in place at the head. -/
theorem sortByTS_eq_self : ∀ l : List Entry, SortedTS l → sortByTS l = l
  | [], _ => rfl
  | x :: xs, h => by
    have hx := List.pairwise_cons.mp h
    rw [sortByTS, sortByTS_eq_self xs hx.2]
    cases xs with
    | nil => rfl
    | cons y ys =>
      rw [insertTS, if_pos (hx.1 y (List.mem_cons_self y ys))]

/-- The summary fields of a chronologically sorted list: head and last
carry the earliest and latest timestamps. -/
theorem summary_of_sorted (l : List Entry) (hs : SortedTS l) :
    l.head?.map Entry.timestamp = V2.minTS? l ∧
      l.getLast?.map Entry.timestamp = V2.maxTS? l :=
  ⟨V2.sorted_head_minTS l hs, V2.sorted_getLast_maxTS l hs⟩

/-- When every request of a run carries one fixed valid identifier, a
proxy user agent and no bot token, every request is accepted, every
accepted entry matches the identifier and every entry is proxy-tagged. -/
theorem acceptedEntries_uniform_proxy (id : String) :
    ∀ evs : List (Nat × Request),
      V2.validId id = true →
      (∀ p ∈ evs, (p : Nat × Request).2.emailId = id ∧
        V2.isGmailProxyUA p.2.userAgent = true ∧ V2.isBotUA p.2.userAgent = false) →
      (V2.acceptedEntries evs).filter (fun e => e.emailId == id) = V2.acceptedEntries evs ∧
        (V2.acceptedEntries evs).length = evs.length ∧
        ∀ e ∈ V2.acceptedEntries evs, e.isGmailProxy = true := by
  intro evs hv
  induction evs with
  | nil =>
    intro _
    refine ⟨rfl, rfl, ?_⟩
    intro e he
    simp [V2.acceptedEntries] at he
  | cons p rest ih =>
    intro hall
    obtain ⟨now, r⟩ := p
    have hp := hall (now, r) (List.mem_cons_self _ _)
    have hrest := ih (fun q hq => hall q (List.mem_cons_of_mem _ hq))
    have hid : r.emailId = id := hp.1
    have hacc : (V2.validId r.emailId && !V2.isBotUA r.userAgent) = true := by
      rw [hid, hv, hp.2.2]; rfl
    rw [V2.acceptedEntries, if_pos hacc]
    refine ⟨?_, ?_, ?_⟩
    · have hbeq : ((V2.mkEntry now r).emailId == id) = true := by
        have : (V2.mkEntry now r).emailId = r.emailId := rfl
        rw [this, hid]
        exact beq_self_eq_true id
      rw [List.filter_cons, hbeq]
      simp only [if_true]
      rw [hrest.1]
    · simp [hrest.2.1]
    · intro e he
      rcases List.mem_cons.mp he with rfl | h2
      · have : (V2.mkEntry now r).isGmailProxy = V2.isGmailProxyUA r.userAgent := rfl
        rw [this, hp.2.1]
      · exact hrest.2.2 e h2

/-- C1: the claim states that for every request to the tracking endpoint
with a valid identifier the handler answers with the fixed pixel bytes
and no-cache headers regardless of the logging outcome, an I/O failure of
the durable append included.  Variant 2 calls `logEvent` with no
try/catch, so a throwing `fs.appendFileSync` escapes the handler and the
client receives the error middleware 500 instead of the pixel, while the
same request with a successful append gets the pixel, and variant 1
(whose append sits in try/catch) sends the pixel even when the append
fails.  This theorem exhibits the divergence at a concrete input. -/
theorem c1_append_failure_suppresses_pixel_in_variant2 :
    (V2.trackHandler 0 true ⟨"abcdefgh", "Mozilla/5.0", "", "1.2.3.4"⟩
        (V2.startupState [])).2 = Resp.serverError "Internal server error" ∧
    (V2.trackHandler 0 false ⟨"abcdefgh", "Mozilla/5.0", "", "1.2.3.4"⟩
        (V2.startupState [])).2 = V2.pixelResp ∧
    (V1.trackHandler 0 true ⟨"abcdefgh", "Mozilla/5.0", "", "1.2.3.4"⟩ []).2 = V1.pixelResp :=
  ⟨by decide, by decide, by decide⟩

/-- C2: N tracking requests for one valid identifier whose user agents
match the image-proxy pattern yet contain no bot token yield exactly N
recorded events for that identifier, each tagged `isGmailProxy = true`,
and the status query then reports `openCount = N`. -/
theorem c2_proxy_fetches_recorded (id : String) (evs : List (Nat × Request))
    (st0 : V2.LogState)
    (hv : V2.validId id = true)
    (hall : ∀ p ∈ evs, (p : Nat × Request).2.emailId = id ∧
      V2.isGmailProxyUA p.2.userAgent = true ∧ V2.isBotUA p.2.userAgent = false)
    (hempty : V2.cacheLookup id st0.cache = []) :
    (V2.emailStatus (V2.runTrack evs st0) id).openCount = evs.length ∧
      ∀ e ∈ V2.cacheLookup id (V2.runTrack evs st0).cache, e.isGmailProxy = true := by
  have hlook := V2.runTrack_cacheLookup id evs st0
  rw [hempty, List.nil_append] at hlook
  have huni := acceptedEntries_uniform_proxy id evs hv hall
  constructor
  · have hcount : (V2.emailStatus (V2.runTrack evs st0) id).openCount =
        (V2.cacheLookup id (V2.runTrack evs st0).cache).length := rfl
    rw [hcount, hlook, huni.1, huni.2.1]
  · intro e he
    rw [hlook, huni.1] at he
    exact huni.2.2 e he

theorem c2_witness :
    V2.validId "abcdefgh" = true ∧
    (∀ p ∈ ([(1, ⟨"abcdefgh", "GoogleImageProxy", "", "9.9.9.9"⟩),
        (2, ⟨"abcdefgh", "via ggpht.com image proxy", "", "9.9.9.9"⟩)] :
        List (Nat × Request)), p.2.emailId = "abcdefgh" ∧
      V2.isGmailProxyUA p.2.userAgent = true ∧ V2.isBotUA p.2.userAgent = false) ∧
    V2.cacheLookup "abcdefgh" (V2.startupState []).cache = [] ∧
    (V2.emailStatus (V2.runTrack
        [(1, ⟨"abcdefgh", "GoogleImageProxy", "", "9.9.9.9"⟩),
         (2, ⟨"abcdefgh", "via ggpht.com image proxy", "", "9.9.9.9"⟩)]
        (V2.startupState [])) "abcdefgh").openCount = 2 :=
  ⟨by decide, by decide, by decide,
    (c2_proxy_fetches_recorded "abcdefgh"
      [(1, ⟨"abcdefgh", "GoogleImageProxy", "", "9.9.9.9"⟩),
       (2, ⟨"abcdefgh", "via ggpht.com image proxy", "", "9.9.9.9"⟩)]
      (V2.startupState []) (by decide) (by decide) (by decide)).1⟩

/-- C3: the variant 2 tracking endpoint answers 400 with the plain-text
body exactly when the identifier fails the `[A-Za-z0-9_-]` / 8..128
syntax rule, and such a rejection leaves the whole state (active file,
rotated archives and cache) untouched.  Variant 1 has no 400 path; the
rule and the rejection are variant 2 behavior. -/
theorem c3_invalid_id_rejected_no_side_effect (now : Nat) (af : Bool) (req : Request)
    (st : V2.LogState) :
    ((V2.trackHandler now af req st).2 = Resp.badRequest "Invalid email ID" ↔
      V2.validId req.emailId = false) ∧
    (V2.validId req.emailId = false → (V2.trackHandler now af req st).1 = st) := by
  cases hv : V2.validId req.emailId
  · exact ⟨⟨fun _ => rfl, fun _ => by simp [V2.trackHandler, hv]⟩,
      fun _ => by simp [V2.trackHandler, hv]⟩
  · constructor
    · constructor
      · intro hresp
        exfalso
        cases hb : V2.isBotUA req.userAgent <;> cases af <;>
          simp [V2.trackHandler, hv, hb, V2.pixelResp] at hresp
      · intro h
        exact Bool.noConfusion h
    · intro h
      exact Bool.noConfusion h

theorem c3_witness :
    V2.validId "a" = false ∧
    (V2.trackHandler 0 false ⟨"a", "Mozilla/5.0", "", "1.2.3.4"⟩ (V2.startupState [])).1 =
      V2.startupState [] :=
  ⟨by decide,
    (c3_invalid_id_rejected_no_side_effect 0 false ⟨"a", "Mozilla/5.0", "", "1.2.3.4"⟩
      (V2.startupState [])).2 (by decide)⟩

/-- C4: a request whose user agent contains a bot token (bot, crawler,
spider, slurp, case-insensitively) never appends an event in either
variant: the variant 2 state and the variant 1 log file are unchanged,
so every status summary is unchanged too. -/
theorem c4_bots_never_recorded (now : Nat) (af : Bool) (req : Request)
    (st : V2.LogState) (file : List Entry)
    (hb : V2.isBotUA req.userAgent = true) :
    (V2.trackHandler now af req st).1 = st ∧
    (V1.trackHandler now af req file).1 = file ∧
    (∀ id, V2.emailStatus (V2.trackHandler now af req st).1 id = V2.emailStatus st id) ∧
    (∀ id, V1.scanStatus (V1.trackHandler now af req file).1 id = V1.scanStatus file id) := by
  have h2 := V2.trackHandler_bot now af req st hb
  have hb1 : V1.isBotUA req.userAgent = true := hb
  have h1 : (V1.trackHandler now af req file).1 = file := by
    simp [V1.trackHandler, hb1]
  exact ⟨h2, h1, fun id => by rw [h2], fun id => by rw [h1]⟩

theorem c4_witness :
    V2.isBotUA "TestBot/2.0" = true ∧
    (V2.trackHandler 5 false ⟨"abcdefgh", "TestBot/2.0", "", "1.2.3.4"⟩
        (V2.startupState [])).1 = V2.startupState [] :=
  ⟨by decide,
    (c4_bots_never_recorded 5 false ⟨"abcdefgh", "TestBot/2.0", "", "1.2.3.4"⟩
      (V2.startupState []) [] (by decide)).1⟩

/-- C5: when the active file exceeds `MAX_LOG_SIZE`, the next accepted
request first archives the whole active content under the rotation
timestamp, and afterwards the fresh active file holds exactly the one new
serialized line while the cache records the new entry. -/
theorem c5_rotation_before_append (now : Nat) (req : Request) (st : V2.LogState)
    (hv : V2.validId req.emailId = true)
    (hb : V2.isBotUA req.userAgent = false)
    (hsize : V2.MAX_LOG_SIZE < V2.fileSize st.activeFile) :
    (V2.trackHandler now false req st).1.activeFile = [V2.mkEntry now req] ∧
    (V2.trackHandler now false req st).1.rotated = st.rotated ++ [(now, st.activeFile)] ∧
    V2.cacheLookup req.emailId (V2.trackHandler now false req st).1.cache =
      V2.cacheLookup req.emailId st.cache ++ [V2.mkEntry now req] := by
  have hacc : (V2.validId req.emailId && !V2.isBotUA req.userAgent) = true := by
    rw [hv, hb]; rfl
  have hrot : V2.rotateLogFile now st =
      { st with activeFile := [], rotated := st.rotated ++ [(now, st.activeFile)] } := by
    simp [V2.rotateLogFile, hsize]
  rw [V2.trackHandler_state, if_pos hacc, hrot]
  refine ⟨rfl, rfl, ?_⟩
  have hproj : (V2.mkEntry now req).emailId = req.emailId := rfl
  show V2.cacheLookup req.emailId
      (V2.cachePush (V2.mkEntry now req).emailId (V2.mkEntry now req) st.cache) = _
  rw [hproj, V2.cacheLookup_cachePush_same]

def wEntry : Entry :=
  { emailId := "abcdefgh", timestamp := 1000, ip := "1.2.3.4", userAgent := "Mozilla/5.0",
    referrer := "", isGmailProxy := false }

def wBigState : V2.LogState :=
  { activeFile := List.replicate 60000 wEntry, rotated := [], cache := [] }

theorem c5_witness :
    V2.validId "abcdefgh" = true ∧
    V2.isBotUA "Mozilla/5.0" = false ∧
    V2.MAX_LOG_SIZE < V2.fileSize wBigState.activeFile ∧
    (V2.trackHandler 7 false ⟨"abcdefgh", "Mozilla/5.0", "", "1.2.3.4"⟩ wBigState).1.activeFile =
      [V2.mkEntry 7 ⟨"abcdefgh", "Mozilla/5.0", "", "1.2.3.4"⟩] := by
  have hsize : V2.MAX_LOG_SIZE < V2.fileSize wBigState.activeFile := by
    show V2.MAX_LOG_SIZE < V2.fileSize (List.replicate 60000 wEntry)
    rw [V2.fileSize_replicate]
    decide
  exact ⟨by decide, by decide, hsize,
    (c5_rotation_before_append 7 ⟨"abcdefgh", "Mozilla/5.0", "", "1.2.3.4"⟩ wBigState
      (by decide) (by decide) hsize).1⟩

/-- C6: for any chronological run, the single status summary for an
identifier has `openCount` equal to the number of recorded events for it,
`opened` exactly when that number is positive, `firstOpened` the earliest
recorded timestamp (none when there are no events) and `lastOpened` the
latest; the bulk handler reports the same summary per identifier; and an
identifier with no recorded events gets the zero summary rather than an
error (the handler is a total function). -/
theorem c6_status_summary (evs : List (Nat × Request)) (hch : V2.chronoB evs = true)
    (id : String) (ids : List String) :
    V2.emailStatus (V2.runTrack evs (V2.startupState [])) id =
      { opened := decide (0 < ((V2.acceptedEntries evs).filter (fun e => e.emailId == id)).length)
        openCount := ((V2.acceptedEntries evs).filter (fun e => e.emailId == id)).length
        firstOpened := V2.minTS? ((V2.acceptedEntries evs).filter (fun e => e.emailId == id))
        lastOpened := V2.maxTS? ((V2.acceptedEntries evs).filter (fun e => e.emailId == id)) } ∧
    V2.bulkStatus (V2.runTrack evs (V2.startupState [])) ids =
      ids.map (fun i => (i, V2.emailStatus (V2.runTrack evs (V2.startupState [])) i)) ∧
    ((V2.acceptedEntries evs).filter (fun e => e.emailId == id) = [] →
      V2.emailStatus (V2.runTrack evs (V2.startupState [])) id = zeroSummary) := by
  have hlook := V2.runTrack_cacheLookup id evs (V2.startupState [])
  have hnil : V2.cacheLookup id (V2.startupState []).cache = [] := rfl
  rw [hnil, List.nil_append] at hlook
  have hsorted : SortedTS ((V2.acceptedEntries evs).filter (fun e => e.emailId == id)) :=
    List.Pairwise.sublist (List.filter_sublist _)
      (V2.acceptedEntries_sorted evs (V2.chronoB_pairwise evs hch))
  refine ⟨?_, rfl, ?_⟩
  · simp only [V2.emailStatus]
    rw [hlook, V2.sorted_head_minTS _ hsorted, V2.sorted_getLast_maxTS _ hsorted]
  · intro hempty
    simp only [V2.emailStatus]
    rw [hlook, hempty]
    rfl

def wRun : List (Nat × Request) :=
  [(1, ⟨"abcdefgh", "Mozilla/5.0", "", "1.2.3.4"⟩),
   (2, ⟨"abcdefgh", "GoogleImageProxy", "", "8.8.8.8"⟩)]

theorem c6_witness :
    V2.chronoB wRun = true ∧
    V2.emailStatus (V2.runTrack wRun (V2.startupState [])) "abcdefgh" =
      { opened := decide (0 < ((V2.acceptedEntries wRun).filter
          (fun e => e.emailId == "abcdefgh")).length)
        openCount := ((V2.acceptedEntries wRun).filter
          (fun e => e.emailId == "abcdefgh")).length
        firstOpened := V2.minTS? ((V2.acceptedEntries wRun).filter
          (fun e => e.emailId == "abcdefgh"))
        lastOpened := V2.maxTS? ((V2.acceptedEntries wRun).filter
          (fun e => e.emailId == "abcdefgh")) } :=
  ⟨by decide, (c6_status_summary wRun (by decide) "abcdefgh" []).1⟩

/-- C7: one accepted (valid identifier, non-bot) tracking request raises
the reported `openCount` for that identifier by exactly one, and after
the very first such request for an identifier the summary has
`firstOpened = lastOpened`. -/
theorem c7_one_call_increments_count (now : Nat) (req : Request) (st : V2.LogState)
    (hv : V2.validId req.emailId = true) (hb : V2.isBotUA req.userAgent = false) :
    (V2.emailStatus (V2.trackHandler now false req st).1 req.emailId).openCount =
      (V2.emailStatus st req.emailId).openCount + 1 ∧
    ((V2.emailStatus st req.emailId).openCount = 0 →
      (V2.emailStatus (V2.trackHandler now false req st).1 req.emailId).firstOpened =
        (V2.emailStatus (V2.trackHandler now false req st).1 req.emailId).lastOpened) := by
  have hlook := V2.cacheLookup_trackHandler req.emailId now req st
  have hacc : (V2.validId req.emailId && !V2.isBotUA req.userAgent) = true := by
    rw [hv, hb]; rfl
  have hsingle : (V2.acceptedEntries [(now, req)]).filter (fun e => e.emailId == req.emailId) =
      [V2.mkEntry now req] := by
    have hproj : (V2.mkEntry now req).emailId = req.emailId := rfl
    simp [V2.acceptedEntries, hacc, List.filter, hproj]
  rw [hsingle] at hlook
  constructor
  · simp only [V2.emailStatus]
    rw [hlook]
    simp
  · intro h0
    have hnil : V2.cacheLookup req.emailId st.cache = [] := by
      have hlen : (V2.cacheLookup req.emailId st.cache).length = 0 := h0
      exact List.length_eq_zero.mp hlen
    simp only [V2.emailStatus]
    rw [hlook, hnil]
    rfl

theorem c7_witness :
    V2.validId "abcdefgh" = true ∧
    V2.isBotUA "Thunderbird/102.0" = false ∧
    (V2.emailStatus (V2.trackHandler 3 false ⟨"abcdefgh", "Thunderbird/102.0", "", "1.2.3.4"⟩
        (V2.startupState [])).1 "abcdefgh").openCount =
      (V2.emailStatus (V2.startupState []) "abcdefgh").openCount + 1 :=
  ⟨by decide, by decide,
    (c7_one_call_increments_count 3 ⟨"abcdefgh", "Thunderbird/102.0", "", "1.2.3.4"⟩
      (V2.startupState []) (by decide) (by decide)).1⟩

/-- C8: over a single chronological run whose appended bytes stay under
the rotation threshold (so no rotation occurs, witnessed by the empty
rotation list), re-scanning and parsing the durable log with the variant
1 file-scanning status computation yields, for every identifier, exactly
the summary of the variant 2 in-memory cache: the index is a faithful
derivation of the log. -/
theorem c8_scan_equals_cache (evs : List (Nat × Request)) (hch : V2.chronoB evs = true)
    (hfit : V2.fileSize (V2.acceptedEntries evs) ≤ V2.MAX_LOG_SIZE) (id : String) :
    V1.scanStatus (V2.runTrack evs (V2.startupState [])).activeFile id =
      V2.emailStatus (V2.runTrack evs (V2.startupState [])) id ∧
    (V2.runTrack evs (V2.startupState [])).rotated = [] := by
  have hfile := V2.runTrack_file evs (V2.startupState []) (by
    have h0 : V2.fileSize (V2.startupState []).activeFile = 0 := rfl
    rw [h0, Nat.zero_add]
    exact hfit)
  have hlook := V2.runTrack_cacheLookup id evs (V2.startupState [])
  have hnil : V2.cacheLookup id (V2.startupState []).cache = [] := rfl
  rw [hnil, List.nil_append] at hlook
  have hactive : (V2.runTrack evs (V2.startupState [])).activeFile = V2.acceptedEntries evs := by
    have h1 := hfile.1
    have h2 : (V2.startupState []).activeFile = ([] : List Entry) := rfl
    rw [h2, List.nil_append] at h1
    exact h1
  have hsorted : SortedTS ((V2.acceptedEntries evs).filter (fun e => e.emailId == id)) :=
    List.Pairwise.sublist (List.filter_sublist _)
      (V2.acceptedEntries_sorted evs (V2.chronoB_pairwise evs hch))
  constructor
  · simp only [V1.scanStatus, V2.emailStatus]
    rw [hactive, hlook, sortByTS_eq_self _ hsorted]
  · exact hfile.2

theorem c8_witness :
    V2.chronoB wRun = true ∧
    V2.fileSize (V2.acceptedEntries wRun) ≤ V2.MAX_LOG_SIZE ∧
    V1.scanStatus (V2.runTrack wRun (V2.startupState [])).activeFile "abcdefgh" =
      V2.emailStatus (V2.runTrack wRun (V2.startupState [])) "abcdefgh" :=
  ⟨by decide, by decide,
    (c8_scan_equals_cache wRun (by decide) (by decide) "abcdefgh").1⟩

/-- C9: bot classification takes precedence over the proxy policy: a
request whose user agent matches the proxy pattern and also a bot token
is not recorded at all, in either variant, and every status summary is
unchanged. -/
theorem c9_bot_overrides_proxy (now : Nat) (af : Bool) (req : Request)
    (st : V2.LogState) (file : List Entry)
    (hp : V2.isGmailProxyUA req.userAgent = true)
    (hb : V2.isBotUA req.userAgent = true) :
    (V2.trackHandler now af req st).1 = st ∧
    (V1.trackHandler now af req file).1 = file ∧
    ∀ id, V2.emailStatus (V2.trackHandler now af req st).1 id = V2.emailStatus st id := by
  have h2 := V2.trackHandler_bot now af req st hb
  have hb1 : V1.isBotUA req.userAgent = true := hb
  have h1 : (V1.trackHandler now af req file).1 = file := by
    simp [V1.trackHandler, hb1]
  exact ⟨h2, h1, fun id => by rw [h2]⟩

theorem c9_witness :
    V2.isGmailProxyUA "Mozilla/5.0 (compatible; Googlebot/2.1)" = true ∧
    V2.isBotUA "Mozilla/5.0 (compatible; Googlebot/2.1)" = true ∧
    (V2.trackHandler 4 false ⟨"abcdefgh", "Mozilla/5.0 (compatible; Googlebot/2.1)", "", "1.2.3.4"⟩
        (V2.startupState [])).1 = V2.startupState [] :=
  ⟨by decide, by decide,
    (c9_bot_overrides_proxy 4 false
      ⟨"abcdefgh", "Mozilla/5.0 (compatible; Googlebot/2.1)", "", "1.2.3.4"⟩
      (V2.startupState []) [] (by decide) (by decide)).1⟩

/-- C10: the variant 2 cache starts empty at process startup and is not
rebuilt from the durable log: whatever the on-disk log content, right
after startup the single and bulk status operations report the zero
summary for every identifier. -/
theorem c10_cache_not_replayed (disk : List Entry) (id : String) (ids : List String) :
    V2.emailStatus (V2.startupState disk) id = zeroSummary ∧
    V2.bulkStatus (V2.startupState disk) ids = ids.map (fun i => (i, zeroSummary)) := by
  constructor
  · rfl
  · rfl
